import Mathlib

/-!
# CPX packet interface of the AI-deck driver (`src/deck/drivers/interface/aideck.h`)

A shallow embedding of the CPX data model declared in `aideck.h` (target and
function enumerations, routing header, physical packet) together with the
operations the interface declares.  The header only declares the operations;
their bodies, and the fragmenter / reassembler / router described by the
specification, are not part of the header and are modelled from the
specification where a definition says so.
-/

namespace Aideck

set_option maxRecDepth 100000
set_option autoImplicit false

/-! ## Data model (from `aideck.h`) -/

/-- Link MTU of the UART transport: `#define AIDECK_UART_TRANSPORT_MTU (100)`. -/
def AIDECK_UART_TRANSPORT_MTU : Nat := 100

/-- Source and destination identifiers of CPX routing (`CPXTarget_t`). -/
inductive CPXTarget_t where
  | CPX_T_STM32
  | CPX_T_ESP32
  | CPX_T_HOST
  | CPX_T_GAP8
deriving DecidableEq, Repr, Fintype

/-- Numeric value of each enumerator of `CPXTarget_t`, as written in the header. -/
def CPXTarget_t.toNat : CPXTarget_t → Nat
  | .CPX_T_STM32 => 1
  | .CPX_T_ESP32 => 2
  | .CPX_T_HOST => 3
  | .CPX_T_GAP8 => 4

/-- Partial inverse of `CPXTarget_t.toNat`: the target whose code is `n`, if
there is one.  A number for which the result is `none` is the code of no
target, an unknown target. -/
def CPXTarget_t.ofCode (n : Nat) : Option CPXTarget_t :=
  if n = 1 then some .CPX_T_STM32
  else if n = 2 then some .CPX_T_ESP32
  else if n = 3 then some .CPX_T_HOST
  else if n = 4 then some .CPX_T_GAP8
  else none

/-- Function channels multiplexed over CPX (`CPXFunction_t`). -/
inductive CPXFunction_t where
  | CPX_F_SYSTEM
  | CPX_F_CONSOLE
  | CPX_F_CRTP
  | CPX_F_WIFI_CTRL
  | CPX_F_APP
  | CPX_F_TEST
  | CPX_F_BOOTLOADER
deriving DecidableEq, Repr, Fintype

/-- Numeric value of each enumerator of `CPXFunction_t`, as written in the header. -/
def CPXFunction_t.toNat : CPXFunction_t → Nat
  | .CPX_F_SYSTEM => 1
  | .CPX_F_CONSOLE => 2
  | .CPX_F_CRTP => 3
  | .CPX_F_WIFI_CTRL => 4
  | .CPX_F_APP => 5
  | .CPX_F_TEST => 0x0E
  | .CPX_F_BOOTLOADER => 0x0F

/-- Routing header (`CPXRouting_t`), fields in declaration order. -/
structure CPXRouting_t where
  destination : CPXTarget_t
  source : CPXTarget_t
  lastPacket : Bool
  function : CPXFunction_t
deriving DecidableEq, Repr

/-- One `uint8_t`. -/
abbrev Byte := Fin 256

/-- Declared size of the `data` member of `CPXPacket_t`:
`uint8_t data[AIDECK_UART_TRANSPORT_MTU-2]`. -/
def CPXPacket_t.dataSize : Nat := AIDECK_UART_TRANSPORT_MTU - 2

/-- Physical packet (`CPXPacket_t`): `dataLength` is a `uint16_t`, `data` an
array of exactly `AIDECK_UART_TRANSPORT_MTU-2` bytes.  The two proof fields
carry what the C types guarantee and nothing more. -/
structure CPXPacket_t where
  route : CPXRouting_t
  dataLength : Nat
  data : List Byte
  dataLength_lt : dataLength < 2 ^ 16
  data_length : data.length = CPXPacket_t.dataSize
deriving DecidableEq

/-- Modelled from the spec: body of `cpxInitRoute`, which `aideck.h` only
declares ("Initialize values and set lastPacket to true").  The C function
writes through the `route` pointer; here the previous contents are the last
argument and the new contents are returned. -/
def cpxInitRoute (source destination : CPXTarget_t) (function : CPXFunction_t)
    (_route : CPXRouting_t) : CPXRouting_t :=
  { destination := destination, source := source, lastPacket := true, function := function }

/-- The bytes a packet carries: the first `dataLength` bytes of `data`. -/
def CPXPacket_t.payload (p : CPXPacket_t) : List Byte :=
  p.data.take p.dataLength

/-! ## Fragmenter (specification section 4.2) -/

/-- Error kinds of the specification (section 7). -/
inductive CPXError where
  | Timeout
  | PayloadTooLarge
  | MessageTooLarge
  | UnknownDestination
  | UnknownFunction
deriving DecidableEq, Repr

/-- Modelled from the spec: construction of one physical packet from a routing
header and at most `MaxPayload` payload bytes (the packet codec is not part of
`aideck.h`).  The chunk is copied to the front of the fixed-size `data` buffer,
the unused tail is zero, and `dataLength` is the chunk length. -/
def mkPacket (route : CPXRouting_t) (chunk : List Byte)
    (h : chunk.length ≤ CPXPacket_t.dataSize) : CPXPacket_t :=
  { route := route
    dataLength := chunk.length
    data := chunk ++ List.replicate (CPXPacket_t.dataSize - chunk.length) 0
    dataLength_lt := Nat.lt_of_le_of_lt h (by decide)
    data_length := by
      rw [List.length_append, List.length_replicate]
      omega }

/-- Modelled from the spec: the loop of the fragmenter (section 4.2), which is
not part of `aideck.h`.  While more than `MaxPayload` bytes remain it emits a
packet with the next `MaxPayload` bytes and `lastPacket = false`; the remaining
bytes go into one packet with `lastPacket = true`.  The first argument bounds
the number of iterations; `fragment` starts it at the payload length, which is
never exhausted before the payload since every iteration consumes `MaxPayload`
bytes. -/
def fragmentLoop (route : CPXRouting_t) : Nat → List Byte → List CPXPacket_t
  | 0, payload =>
    [mkPacket { route with lastPacket := true } (payload.take CPXPacket_t.dataSize)
      (List.length_take_le _ _)]
  | fuel + 1, payload =>
    if h : payload.length ≤ CPXPacket_t.dataSize then
      [mkPacket { route with lastPacket := true } payload h]
    else
      mkPacket { route with lastPacket := false } (payload.take CPXPacket_t.dataSize)
          (List.length_take_le _ _) ::
        fragmentLoop route fuel (payload.drop CPXPacket_t.dataSize)

/-- Modelled from the spec: `fragment(route, payload)` of section 4.2, not part
of `aideck.h`.  Fails with `PayloadTooLarge` when the payload exceeds the
configured maximum logical-message size, otherwise yields the packets in
order. -/
def fragment (maxMessageSize : Nat) (route : CPXRouting_t) (payload : List Byte) :
    Except CPXError (List CPXPacket_t) :=
  if maxMessageSize < payload.length then .error .PayloadTooLarge
  else .ok (fragmentLoop route payload.length payload)

/-! ## Reassembler (specification section 4.3) -/

/-- Key of a reassembly channel: (source, destination, function). -/
structure ChannelKey where
  source : CPXTarget_t
  destination : CPXTarget_t
  function : CPXFunction_t
deriving DecidableEq, Repr

/-- The channel a routing header belongs to (the final-fragment flag is not
part of the identity). -/
def CPXRouting_t.key (r : CPXRouting_t) : ChannelKey :=
  { source := r.source, destination := r.destination, function := r.function }

/-- A reassembled logical message together with the routing header it retains. -/
structure LogicalMessage where
  route : CPXRouting_t
  payload : List Byte
deriving DecidableEq, Repr

/-- What feeding one packet to a channel produced. -/
inductive ReassemblyOutcome where
  | pending
  | delivered (m : LogicalMessage)
  | messageTooLarge
deriving DecidableEq, Repr

/-- Modelled from the spec: the per-channel state machine of section 4.3, not
part of `aideck.h`.  The state `none` is `IDLE`; `some buf` is `ACCUMULATING`
with accumulation buffer `buf` (its length is the byte count so far).  The
last-activity marker of a reassembly context takes no part in the transitions
of section 4.3 and is left out. -/
def channelStep (maxMessageSize : Nat) (ctx : Option (List Byte)) (p : CPXPacket_t) :
    Option (List Byte) × ReassemblyOutcome :=
  match ctx, p.route.lastPacket with
  | none, true => (none, .delivered { route := p.route, payload := p.payload })
  | none, false => (some p.payload, .pending)
  | some buf, false =>
    if maxMessageSize < (buf ++ p.payload).length then (none, .messageTooLarge)
    else (some (buf ++ p.payload), .pending)
  | some buf, true => (none, .delivered { route := p.route, payload := buf ++ p.payload })

/-- Reassembly contexts of all channels, keyed by (source, destination, function). -/
abbrev Reassembler := ChannelKey → Option (List Byte)

/-- The reassembler with every channel idle. -/
def Reassembler.idle : Reassembler := fun _ => none

/-- Modelled from the spec: feeding one packet to the reassembler (section 4.3):
the packet drives the state machine of its own channel and leaves every other
channel untouched. -/
def reassemble (maxMessageSize : Nat) (st : Reassembler) (p : CPXPacket_t) :
    Reassembler × ReassemblyOutcome :=
  ((Function.update st p.route.key (channelStep maxMessageSize (st p.route.key) p).1),
    (channelStep maxMessageSize (st p.route.key) p).2)

/-- The messages an outcome delivers: one or none. -/
def ReassemblyOutcome.messages : ReassemblyOutcome → List LogicalMessage
  | .delivered m => [m]
  | _ => []

/-- Feeding a sequence of packets in arrival order: final contexts and the
messages delivered, in delivery order. -/
def reassembleAll (maxMessageSize : Nat) :
    Reassembler → List CPXPacket_t → Reassembler × List LogicalMessage
  | st, [] => (st, [])
  | st, p :: ps =>
    ((reassembleAll maxMessageSize (reassemble maxMessageSize st p).1 ps).1,
      (reassemble maxMessageSize st p).2.messages ++
        (reassembleAll maxMessageSize (reassemble maxMessageSize st p).1 ps).2)

/-- Feeding a sequence of packets to one channel only: final context of the
channel and the messages it delivered, in order. -/
def channelRun (maxMessageSize : Nat) :
    Option (List Byte) → List CPXPacket_t → Option (List Byte) × List LogicalMessage
  | ctx, [] => (ctx, [])
  | ctx, p :: ps =>
    ((channelRun maxMessageSize (channelStep maxMessageSize ctx p).1 ps).1,
      (channelStep maxMessageSize ctx p).2.messages ++
        (channelRun maxMessageSize (channelStep maxMessageSize ctx p).1 ps).2)

/-! ## Blocking queue and send path (specification sections 4.4 and 4.5) -/

/-- Modelled from the spec: the bounded FIFO queue of section 4.5 (the queue
implementation is not part of `aideck.h`): a capacity and the queued items,
head first. -/
structure BlockingQueue (α : Type) where
  capacity : Nat
  items : List α
deriving DecidableEq, Repr

/-- Whether the queue has no free slot. -/
def BlockingQueue.isFull {α : Type} (q : BlockingQueue α) : Bool :=
  decide (q.capacity ≤ q.items.length)

/-- The queue with `x` appended at the tail. -/
def BlockingQueue.push {α : Type} (q : BlockingQueue α) (x : α) : BlockingQueue α :=
  { q with items := q.items ++ [x] }

/-- The queue after its consumer removed `n` items from the head. -/
def BlockingQueue.drain {α : Type} (q : BlockingQueue α) (n : Nat) : BlockingQueue α :=
  { q with items := q.items.drop n }

/-- The queue a suspended producer finds after `ms` milliseconds, when the
consuming task removes `consumer i` items during millisecond `i` of the wait. -/
def BlockingQueue.afterWait {α : Type} (q : BlockingQueue α) (consumer : Nat → Nat) :
    Nat → BlockingQueue α
  | 0 => q
  | ms + 1 => (q.drain (consumer 0)).afterWait (fun i => consumer (i + 1)) ms

/-- Modelled from the spec: body of `cpxSendPacket`, which `aideck.h` only
declares, as `tryPush(item, timeoutInMS)` of section 4.5 on the outbound queue.
The global queue is passed in and returned next to the result; `transport i`
is the number of packets the concurrent transport task takes off the queue
during millisecond `i` of the wait.  The packet is enqueued at the first
millisecond at which the queue has a free slot; when the queue is still full
after `timeoutInMS` milliseconds the call gives up.  With `timeoutInMS = 0` a
single attempt is made. -/
def cpxSendPacket (txQueue : BlockingQueue CPXPacket_t) (transport : Nat → Nat)
    (packet : CPXPacket_t) : Nat → Bool × BlockingQueue CPXPacket_t
  | 0 => if txQueue.isFull then (false, txQueue) else (true, txQueue.push packet)
  | timeoutInMS + 1 =>
    if txQueue.isFull then
      cpxSendPacket (txQueue.drain (transport 0)) (fun i => transport (i + 1)) packet timeoutInMS
    else (true, txQueue.push packet)

/-! ## Router, receive path (specification section 4.3) -/

/-- Modelled from the spec: state of the router's receive path (section 4.3 and
9), which is not part of `aideck.h`: the configured maximum message size, the
function channels with a registered consumer, the reassembly contexts and the
queue of delivered messages read by `cpxReceivePacketBlocking` (one queue, as
that function takes no function-channel argument). -/
structure Router where
  maxMessageSize : Nat
  registered : CPXFunction_t → Bool
  reassembler : Reassembler
  rxQueue : BlockingQueue LogicalMessage

/-- A router with every channel idle and an empty receive queue. -/
def Router.init (maxMessageSize capacity : Nat) (registered : CPXFunction_t → Bool) : Router :=
  { maxMessageSize := maxMessageSize
    registered := registered
    reassembler := Reassembler.idle
    rxQueue := { capacity := capacity, items := [] } }

/-- Modelled from the spec: the router handling one packet from the transport
(section 4.3).  A packet whose destination is not the local target
`CPX_T_STM32` is not delivered locally; a packet for a function without a
registered consumer is dropped; any other packet is fed to the reassembler and
a completed message is pushed onto the receive queue.  The result `none` means
the router is suspended: the message is complete but the receive queue is
full, and the packet is not consumed. -/
def routerReceive (r : Router) (p : CPXPacket_t) : Option Router :=
  if p.route.destination ≠ CPXTarget_t.CPX_T_STM32 then some r
  else if r.registered p.route.function = false then some r
  else
    match (reassemble r.maxMessageSize r.reassembler p).2 with
    | .delivered m =>
      if r.rxQueue.isFull then none
      else some { r with reassembler := (reassemble r.maxMessageSize r.reassembler p).1
                         rxQueue := r.rxQueue.push m }
    | _ => some { r with reassembler := (reassemble r.maxMessageSize r.reassembler p).1 }

/-- Modelled from the spec: body of `cpxReceivePacketBlocking`, which `aideck.h`
only declares, as `receiveBlocking` of section 6: it takes the message at the
head of the receive queue.  The result `none` means the caller stays blocked
because no message is available. -/
def cpxReceivePacketBlocking (r : Router) : Option (LogicalMessage × Router) :=
  match r.rxQueue.items with
  | [] => none
  | m :: rest => some (m, { r with rxQueue := { r.rxQueue with items := rest } })

/-- What happens at the router: a packet arrives from the transport, or a
consumer calls `cpxReceivePacketBlocking`. -/
inductive RouterEvent where
  | incoming (p : CPXPacket_t)
  | receive

/-- One event; a suspended router or a blocked consumer leaves the state as it is. -/
def routerStep (r : Router) : RouterEvent → Router
  | .incoming p => (routerReceive r p).getD r
  | .receive => ((cpxReceivePacketBlocking r).map (fun res => res.2)).getD r

/-- The router after a sequence of events. -/
def routerRun (r : Router) (events : List RouterEvent) : Router :=
  events.foldl routerStep r

/-- The messages the calls of `cpxReceivePacketBlocking` returned during a
sequence of events, in order. -/
def routerReturned : Router → List RouterEvent → List LogicalMessage
  | _, [] => []
  | r, .incoming p :: events => routerReturned (routerStep r (.incoming p)) events
  | r, .receive :: events =>
    ((cpxReceivePacketBlocking r).map (fun res => res.1)).toList ++
      routerReturned (routerStep r .receive) events

/-! ## Concrete values used as examples -/

/-- A route from the STM32 to the GAP8 on the application channel. -/
def exampleRoute : CPXRouting_t :=
  { destination := .CPX_T_GAP8, source := .CPX_T_STM32, lastPacket := false,
    function := .CPX_F_APP }

/-- A packet whose declared length equals the size of the data buffer. -/
def fullPacket : CPXPacket_t :=
  { route := exampleRoute, dataLength := 98, data := List.replicate 98 0,
    dataLength_lt := by decide, data_length := by decide }

/-- A packet value whose declared length is one more than the data buffer holds. -/
def overlongPacket : CPXPacket_t :=
  { route := exampleRoute, dataLength := 99, data := List.replicate 98 0,
    dataLength_lt := by decide, data_length := by decide }

/-- A route from the ESP32 to the STM32 on the console channel. -/
def exampleConsoleRoute : CPXRouting_t :=
  { destination := .CPX_T_STM32, source := .CPX_T_ESP32, lastPacket := false,
    function := .CPX_F_CONSOLE }

/-- A payload of 250 bytes numbered 0 to 249. -/
def examplePayload : List Byte :=
  (List.range 250).map (fun i => Fin.ofNat i)

/-- The three fragments of `examplePayload` on `exampleRoute` interleaved on the
wire with the two fragments of a 120-byte console message. -/
def exampleWire : List CPXPacket_t :=
  (fragmentLoop exampleRoute 250 examplePayload).take 1 ++
    (fragmentLoop exampleConsoleRoute 120 (examplePayload.take 120)).take 1 ++
    ((fragmentLoop exampleRoute 250 examplePayload).drop 1).take 1 ++
    (fragmentLoop exampleConsoleRoute 120 (examplePayload.take 120)).drop 1 ++
    (fragmentLoop exampleRoute 250 examplePayload).drop 2

/-- A single-packet application message from the GAP8 to the STM32. -/
def exampleLocalPacket : CPXPacket_t :=
  mkPacket { destination := .CPX_T_STM32, source := .CPX_T_GAP8, lastPacket := true,
             function := .CPX_F_APP } (examplePayload.take 10) (by decide)

/-- A single-packet application message from the GAP8 to the remote host. -/
def exampleForeignPacket : CPXPacket_t :=
  mkPacket { destination := .CPX_T_HOST, source := .CPX_T_GAP8, lastPacket := true,
             function := .CPX_F_APP } (examplePayload.take 20) (by decide)

/-- An outbound queue of capacity 1 that holds one packet. -/
def exampleFullQueue : BlockingQueue CPXPacket_t :=
  { capacity := 1, items := [fullPacket] }

/-- A transport that takes one packet off the queue during the third
millisecond and none otherwise. -/
def exampleTransport : Nat → Nat :=
  fun i => if i = 2 then 1 else 0

/-! ## Theorems -/

/-- C1: `cpxInitRoute s d f route` leaves the route equal to
`{source = s, destination = d, function = f, lastPacket = true}`, whatever the
route held before. -/
theorem cpxInitRoute_spec (s d : CPXTarget_t) (f : CPXFunction_t) (route : CPXRouting_t) :
    cpxInitRoute s d f route =
        { destination := d, source := s, lastPacket := true, function := f } ∧
      (cpxInitRoute s d f route).source = s ∧
      (cpxInitRoute s d f route).destination = d ∧
      (cpxInitRoute s d f route).function = f ∧
      (cpxInitRoute s d f route).lastPacket = true :=
  ⟨rfl, rfl, rfl, rfl, rfl⟩

/-- C2: `CPXTarget_t` has exactly four values with codes STM32 = 1, ESP32 = 2,
HOST = 3, GAP8 = 4; the codes are pairwise distinct, a number is the code of a
target exactly when it lies in 1..4, and every other number is unknown: the
inverse of the code map finds no target for it. -/
theorem CPXTarget_t_codes :
    Fintype.card CPXTarget_t = 4 ∧
      CPXTarget_t.CPX_T_STM32.toNat = 1 ∧
      CPXTarget_t.CPX_T_ESP32.toNat = 2 ∧
      CPXTarget_t.CPX_T_HOST.toNat = 3 ∧
      CPXTarget_t.CPX_T_GAP8.toNat = 4 ∧
      Function.Injective CPXTarget_t.toNat ∧
      (∀ n : Nat, (∃ t : CPXTarget_t, t.toNat = n) ↔ 1 ≤ n ∧ n ≤ 4) ∧
      (∀ (n : Nat) (t : CPXTarget_t), CPXTarget_t.ofCode n = some t ↔ t.toNat = n) ∧
      (∀ n : Nat, CPXTarget_t.ofCode n = none ↔ ¬ (1 ≤ n ∧ n ≤ 4)) := by
  refine ⟨rfl, rfl, rfl, rfl, rfl, ?_, ?_, ?_, ?_⟩
  · intro a b h
    cases a <;> cases b <;> first | rfl | (exact absurd h (by decide))
  · intro n
    constructor
    · rintro ⟨t, rfl⟩
      cases t <;> decide
    · rintro ⟨h1, h4⟩
      have h : n = 1 ∨ n = 2 ∨ n = 3 ∨ n = 4 := by omega
      rcases h with rfl | rfl | rfl | rfl
      · exact ⟨.CPX_T_STM32, rfl⟩
      · exact ⟨.CPX_T_ESP32, rfl⟩
      · exact ⟨.CPX_T_HOST, rfl⟩
      · exact ⟨.CPX_T_GAP8, rfl⟩
  · intro n t
    unfold CPXTarget_t.ofCode
    constructor
    · intro h
      split_ifs at h with h1 h2 h3 h4 <;> cases h <;> simp [CPXTarget_t.toNat, *]
    · intro h
      cases t <;> simp [CPXTarget_t.toNat] at h <;> subst h <;> rfl
  · intro n
    unfold CPXTarget_t.ofCode
    constructor
    · intro h
      split_ifs at h
      omega
    · intro h
      have h1 : n ≠ 1 := by omega
      have h2 : n ≠ 2 := by omega
      have h3 : n ≠ 3 := by omega
      have h4 : n ≠ 4 := by omega
      simp [h1, h2, h3, h4]

/-- C3: `CPXFunction_t` has exactly seven values with codes system = 1,
console = 2, CRTP = 3, Wi-Fi control = 4, application = 5, test = 14,
bootloader = 15; the codes are pairwise distinct and a number is the code of a
function channel exactly when it is one of 1, 2, 3, 4, 5, 14, 15. -/
theorem CPXFunction_t_codes :
    Fintype.card CPXFunction_t = 7 ∧
      CPXFunction_t.CPX_F_SYSTEM.toNat = 1 ∧
      CPXFunction_t.CPX_F_CONSOLE.toNat = 2 ∧
      CPXFunction_t.CPX_F_CRTP.toNat = 3 ∧
      CPXFunction_t.CPX_F_WIFI_CTRL.toNat = 4 ∧
      CPXFunction_t.CPX_F_APP.toNat = 5 ∧
      CPXFunction_t.CPX_F_TEST.toNat = 14 ∧
      CPXFunction_t.CPX_F_BOOTLOADER.toNat = 15 ∧
      Function.Injective CPXFunction_t.toNat ∧
      (∀ n : Nat, (∃ f : CPXFunction_t, f.toNat = n) ↔
        n = 1 ∨ n = 2 ∨ n = 3 ∨ n = 4 ∨ n = 5 ∨ n = 14 ∨ n = 15) := by
  refine ⟨rfl, rfl, rfl, rfl, rfl, rfl, rfl, rfl, ?_, ?_⟩
  · intro a b h
    cases a <;> cases b <;> first | rfl | (exact absurd h (by decide))
  · intro n
    constructor
    · rintro ⟨f, rfl⟩
      cases f <;> decide
    · rintro (rfl | rfl | rfl | rfl | rfl | rfl | rfl)
      · exact ⟨.CPX_F_SYSTEM, rfl⟩
      · exact ⟨.CPX_F_CONSOLE, rfl⟩
      · exact ⟨.CPX_F_CRTP, rfl⟩
      · exact ⟨.CPX_F_WIFI_CTRL, rfl⟩
      · exact ⟨.CPX_F_APP, rfl⟩
      · exact ⟨.CPX_F_TEST, rfl⟩
      · exact ⟨.CPX_F_BOOTLOADER, rfl⟩

/-- C4: the payload capacity of a physical packet, the size of
`CPXPacket_t.data`, is the link MTU of 100 minus 2 bytes, that is 98 bytes. -/
theorem CPXPacket_t_payload_capacity :
    AIDECK_UART_TRANSPORT_MTU = 100 ∧
      CPXPacket_t.dataSize = AIDECK_UART_TRANSPORT_MTU - 2 ∧
      CPXPacket_t.dataSize = 98 ∧
      ∀ p : CPXPacket_t, p.data.length = 98 :=
  ⟨rfl, rfl, rfl, fun p => p.data_length⟩

/-- C5 (counterexample): a packet whose declared length is the full payload
capacity of 98 bytes, preceded by a routing header of the smallest admitted
size (1 byte) and the 2-byte length field, takes 101 bytes, more than the link
MTU of 100; accordingly the capacity is not `LinkMTU - headerBytes - 2`. -/
theorem wire_size_exceeds_mtu :
    fullPacket.dataLength ≤ CPXPacket_t.dataSize ∧
      AIDECK_UART_TRANSPORT_MTU < 1 + 2 + fullPacket.dataLength ∧
      CPXPacket_t.dataSize ≠ AIDECK_UART_TRANSPORT_MTU - 1 - 2 := by
  decide

/-- C5 (amended): the payload capacity is `LinkMTU - 2`, so a packet whose
length is within the capacity fits in the MTU together with 2 bytes of
overhead; with `headerBytes` bytes of routing header on top of a 2-byte length
field the bound `headerBytes + 2 + length ≤ LinkMTU` holds for all such packets
exactly when `headerBytes = 0`. -/
theorem wire_size_within_mtu :
    CPXPacket_t.dataSize = AIDECK_UART_TRANSPORT_MTU - 2 ∧
      (∀ p : CPXPacket_t, p.dataLength ≤ CPXPacket_t.dataSize →
        2 + p.dataLength ≤ AIDECK_UART_TRANSPORT_MTU) ∧
      (∀ headerBytes : Nat,
        (∀ p : CPXPacket_t, p.dataLength ≤ CPXPacket_t.dataSize →
          headerBytes + 2 + p.dataLength ≤ AIDECK_UART_TRANSPORT_MTU) ↔ headerBytes = 0) := by
  refine ⟨rfl, ?_, ?_⟩
  · intro p hp
    have h1 : CPXPacket_t.dataSize = 98 := rfl
    have h2 : AIDECK_UART_TRANSPORT_MTU = 100 := rfl
    omega
  · intro headerBytes
    have h1 : CPXPacket_t.dataSize = 98 := rfl
    have h2 : AIDECK_UART_TRANSPORT_MTU = 100 := rfl
    constructor
    · intro h
      have h3 := h fullPacket (by decide)
      have h4 : fullPacket.dataLength = 98 := rfl
      omega
    · rintro rfl p hp
      omega

/-- C5 (witness): the amended bound at the packet that fills the data buffer:
98 bytes of payload and 2 bytes of overhead take exactly the MTU. -/
theorem wire_size_within_mtu_witness :
    fullPacket.dataLength ≤ CPXPacket_t.dataSize ∧
      2 + fullPacket.dataLength ≤ AIDECK_UART_TRANSPORT_MTU ∧
      2 + fullPacket.dataLength = 100 :=
  ⟨by decide, wire_size_within_mtu.2.1 fullPacket (by decide), by decide⟩

/-- C6 (counterexample): a value of `CPXPacket_t` whose `dataLength` is 99,
beyond the 98 bytes of its data buffer. -/
theorem dataLength_exceeds_buffer :
    CPXPacket_t.dataSize < overlongPacket.dataLength ∧
      overlongPacket.data.length = CPXPacket_t.dataSize := by
  decide

/-- C6 (amended): the packet type bounds `dataLength` only by the range of a
`uint16_t`: a number is the `dataLength` of some packet value exactly when it
is at most 65535.  The data buffer always holds 98 bytes, and the declared
length stays inside the buffer exactly for the packets with
`dataLength ≤ 98`. -/
theorem dataLength_range :
    (∀ p : CPXPacket_t, p.dataLength ≤ 65535 ∧ p.data.length = 98) ∧
      (∀ n : Nat, (∃ p : CPXPacket_t, p.dataLength = n) ↔ n ≤ 65535) ∧
      (∀ p : CPXPacket_t,
        p.payload.length = p.dataLength ↔ p.dataLength ≤ 98) := by
  refine ⟨?_, ?_, ?_⟩
  · intro p
    have h := p.dataLength_lt
    exact ⟨by omega, p.data_length⟩
  · intro n
    constructor
    · rintro ⟨p, rfl⟩
      have h := p.dataLength_lt
      omega
    · intro h
      exact ⟨{ route := exampleRoute, dataLength := n, data := List.replicate 98 0,
               dataLength_lt := by omega, data_length := by decide }, rfl⟩
  · intro p
    have h : p.data.length = 98 := p.data_length
    unfold CPXPacket_t.payload
    rw [List.length_take, h]
    omega


/-! ## Fragmenter: lemmas -/


theorem dataSize_eq : CPXPacket_t.dataSize = 98 := rfl

theorem mkPacket_payload (route : CPXRouting_t) (chunk : List Byte)
    (h : chunk.length ≤ CPXPacket_t.dataSize) : (mkPacket route chunk h).payload = chunk := by
  unfold CPXPacket_t.payload mkPacket
  exact List.take_left _ _

theorem ceil_div_dataSize (n : Nat) :
    ⌈(n : ℚ) / (CPXPacket_t.dataSize : ℚ)⌉₊ = (n + 97) / 98 := by
  rw [dataSize_eq]
  apply le_antisymm
  · rw [Nat.ceil_le, div_le_iff₀ (by norm_num)]
    have h : n ≤ (n + 97) / 98 * 98 := by omega
    exact_mod_cast h
  · by_contra hlt
    push_neg at hlt
    have h1 : ⌈(n : ℚ) / ((98 : ℕ) : ℚ)⌉₊ + 1 ≤ (n + 97) / 98 := hlt
    have h2 : (n : ℚ) / ((98 : ℕ) : ℚ) ≤ (⌈(n : ℚ) / ((98 : ℕ) : ℚ)⌉₊ : ℚ) := Nat.le_ceil _
    rw [div_le_iff₀ (by norm_num)] at h2
    have h3 : n ≤ ⌈(n : ℚ) / ((98 : ℕ) : ℚ)⌉₊ * 98 := by exact_mod_cast h2
    omega

theorem fragmentLoop_length (route : CPXRouting_t) :
    ∀ (fuel : Nat) (payload : List Byte), payload.length ≤ fuel →
      (fragmentLoop route fuel payload).length =
        if payload.length ≤ 98 then 1 else (payload.length + 97) / 98 := by
  intro fuel
  induction fuel with
  | zero =>
    intro payload h
    have h0 : payload.length ≤ 98 := by omega
    simp [fragmentLoop, h0]
  | succ fuel ih =>
    intro payload h
    unfold fragmentLoop
    by_cases hle : payload.length ≤ CPXPacket_t.dataSize
    · have h0 : payload.length ≤ 98 := hle
      simp [hle, h0]
    · have h0 : ¬ payload.length ≤ 98 := hle
      have hd : (payload.drop CPXPacket_t.dataSize).length = payload.length - 98 := by
        rw [List.length_drop, dataSize_eq]
      rw [dif_neg hle, List.length_cons, ih _ (by omega), hd, if_neg h0]
      split_ifs <;> omega

theorem fragmentLoop_packets (route : CPXRouting_t) :
    ∀ (fuel : Nat) (payload : List Byte), ∀ p ∈ fragmentLoop route fuel payload,
      p.dataLength ≤ CPXPacket_t.dataSize ∧ p.route.source = route.source ∧
        p.route.destination = route.destination ∧ p.route.function = route.function := by
  intro fuel
  induction fuel with
  | zero =>
    intro payload p hp
    simp only [fragmentLoop, List.mem_singleton] at hp
    subst hp
    exact ⟨List.length_take_le _ _, rfl, rfl, rfl⟩
  | succ fuel ih =>
    intro payload p hp
    unfold fragmentLoop at hp
    by_cases hle : payload.length ≤ CPXPacket_t.dataSize
    · rw [dif_pos hle, List.mem_singleton] at hp
      subst hp
      exact ⟨hle, rfl, rfl, rfl⟩
    · rw [dif_neg hle, List.mem_cons] at hp
      rcases hp with hp | hp
      · subst hp
        exact ⟨List.length_take_le _ _, rfl, rfl, rfl⟩
      · exact ih _ p hp

theorem fragmentLoop_flags (route : CPXRouting_t) :
    ∀ (fuel : Nat) (payload : List Byte), ∃ init last,
      fragmentLoop route fuel payload = init ++ [last] ∧ last.route.lastPacket = true ∧
        ∀ p ∈ init, p.route.lastPacket = false := by
  intro fuel
  induction fuel with
  | zero =>
    intro payload
    exact ⟨[], _, rfl, rfl, by simp⟩
  | succ fuel ih =>
    intro payload
    unfold fragmentLoop
    by_cases hle : payload.length ≤ CPXPacket_t.dataSize
    · rw [dif_pos hle]
      exact ⟨[], _, rfl, rfl, by simp⟩
    · rw [dif_neg hle]
      obtain ⟨init, last, h1, h2, h3⟩ := ih (payload.drop CPXPacket_t.dataSize)
      refine ⟨_ :: init, last, by rw [h1]; rfl, h2, ?_⟩
      intro p hp
      rw [List.mem_cons] at hp
      rcases hp with hp | hp
      · subst hp
        rfl
      · exact h3 p hp

theorem fragmentLoop_sizes_250 (route : CPXRouting_t) (fuel : Nat) (payload : List Byte)
    (hf : 250 ≤ fuel) (h : payload.length = 250) :
    (fragmentLoop route fuel payload).map (fun p => p.dataLength) = [98, 98, 54] := by
  obtain ⟨k, rfl⟩ : ∃ k, fuel = k + 3 := ⟨fuel - 3, by omega⟩
  simp [fragmentLoop, mkPacket, dataSize_eq, h]


/-! ## Reassembler: lemmas -/


theorem channelStep_messages_route (maxMessageSize : Nat) (ctx : Option (List Byte))
    (p : CPXPacket_t) :
    ∀ m ∈ (channelStep maxMessageSize ctx p).2.messages, m.route = p.route := by
  intro m hm
  unfold channelStep at hm
  cases ctx with
  | none =>
    cases hl : p.route.lastPacket <;> simp [hl, ReassemblyOutcome.messages] at hm
    subst hm
    rfl
  | some buf =>
    cases hl : p.route.lastPacket
    · simp only [hl] at hm
      split_ifs at hm <;> simp [ReassemblyOutcome.messages] at hm
    · simp [hl, ReassemblyOutcome.messages] at hm
      subst hm
      rfl

/-- Projection of the reassembler onto one channel: the context of channel `k`
and the messages delivered on it depend only on the packets of channel `k`. -/
theorem reassembleAll_channel (maxMessageSize : Nat) (k : ChannelKey) :
    ∀ (wire : List CPXPacket_t) (st : Reassembler),
      (reassembleAll maxMessageSize st wire).1 k =
          (channelRun maxMessageSize (st k)
            (wire.filter (fun p => decide (p.route.key = k)))).1 ∧
        (reassembleAll maxMessageSize st wire).2.filter (fun m => decide (m.route.key = k)) =
          (channelRun maxMessageSize (st k)
            (wire.filter (fun p => decide (p.route.key = k)))).2 := by
  intro wire
  induction wire with
  | nil =>
    intro st
    exact ⟨rfl, rfl⟩
  | cons p ps ih =>
    intro st
    by_cases hk : p.route.key = k
    · have hf : (p :: ps).filter (fun p => decide (p.route.key = k)) =
          p :: ps.filter (fun p => decide (p.route.key = k)) :=
        List.filter_cons_of_pos (by simpa using hk)
      have hst : (reassemble maxMessageSize st p).1 k =
          (channelStep maxMessageSize (st k) p).1 := by
        unfold reassemble
        subst hk
        simp
      have hout : (reassemble maxMessageSize st p).2 =
          (channelStep maxMessageSize (st k) p).2 := by
        unfold reassemble
        subst hk
        rfl
      have hkeep : (channelStep maxMessageSize (st k) p).2.messages.filter
          (fun m => decide (m.route.key = k)) =
          (channelStep maxMessageSize (st k) p).2.messages := by
        rw [List.filter_eq_self]
        intro m hm
        have := channelStep_messages_route maxMessageSize (st k) p m hm
        simp [this, hk]
      obtain ⟨ih1, ih2⟩ := ih (reassemble maxMessageSize st p).1
      rw [hf]
      simp only [reassembleAll, channelRun, List.filter_append]
      rw [ih1, ih2, hst, hout, hkeep]
      exact ⟨rfl, rfl⟩
    · have hf : (p :: ps).filter (fun p => decide (p.route.key = k)) =
          ps.filter (fun p => decide (p.route.key = k)) :=
        List.filter_cons_of_neg (by simpa using hk)
      have hst : (reassemble maxMessageSize st p).1 k = st k := by
        unfold reassemble
        exact Function.update_noteq (Ne.symm hk) _ _
      have hdrop : (reassemble maxMessageSize st p).2.messages.filter
          (fun m => decide (m.route.key = k)) = [] := by
        rw [List.filter_eq_nil_iff]
        intro m hm
        have := channelStep_messages_route maxMessageSize (st p.route.key) p m hm
        simp [this, hk]
      obtain ⟨ih1, ih2⟩ := ih (reassemble maxMessageSize st p).1
      rw [hf]
      simp only [reassembleAll, List.filter_append]
      rw [ih1, ih2, hst, hdrop]
      exact ⟨rfl, rfl⟩

theorem channelStep_acc_last (maxMessageSize : Nat) (route : CPXRouting_t)
    (buf chunk : List Byte) (h : chunk.length ≤ CPXPacket_t.dataSize) :
    channelStep maxMessageSize (some buf) (mkPacket { route with lastPacket := true } chunk h) =
      (none, .delivered { route := { route with lastPacket := true },
                          payload := buf ++ chunk }) := by
  unfold channelStep
  rw [mkPacket_payload]
  rfl

theorem channelStep_idle_last (maxMessageSize : Nat) (route : CPXRouting_t)
    (chunk : List Byte) (h : chunk.length ≤ CPXPacket_t.dataSize) :
    channelStep maxMessageSize none (mkPacket { route with lastPacket := true } chunk h) =
      (none, .delivered { route := { route with lastPacket := true }, payload := chunk }) := by
  unfold channelStep
  rw [mkPacket_payload]
  rfl

theorem channelStep_acc_more (maxMessageSize : Nat) (route : CPXRouting_t)
    (buf chunk : List Byte) (h : chunk.length ≤ CPXPacket_t.dataSize)
    (hfit : ¬ maxMessageSize < (buf ++ chunk).length) :
    channelStep maxMessageSize (some buf) (mkPacket { route with lastPacket := false } chunk h) =
      (some (buf ++ chunk), .pending) := by
  unfold channelStep
  rw [mkPacket_payload]
  exact if_neg hfit

theorem channelStep_idle_more (maxMessageSize : Nat) (route : CPXRouting_t)
    (chunk : List Byte) (h : chunk.length ≤ CPXPacket_t.dataSize) :
    channelStep maxMessageSize none (mkPacket { route with lastPacket := false } chunk h) =
      (some chunk, .pending) := by
  unfold channelStep
  rw [mkPacket_payload]
  rfl

/-- An accumulating channel fed the fragments of `payload` delivers its buffer
followed by `payload` and returns to idle, provided the total stays within the
maximum. -/
theorem channelRun_fragmentLoop_acc (maxMessageSize : Nat) (route : CPXRouting_t) :
    ∀ (fuel : Nat) (payload buf : List Byte), payload.length ≤ fuel →
      buf.length + payload.length ≤ maxMessageSize →
      channelRun maxMessageSize (some buf) (fragmentLoop route fuel payload) =
        (none, [{ route := { route with lastPacket := true }, payload := buf ++ payload }]) := by
  intro fuel
  induction fuel with
  | zero =>
    intro payload buf h _
    have hnil : payload = [] := List.length_eq_zero.mp (by omega)
    subst hnil
    simp only [fragmentLoop, channelRun, channelStep_acc_last, ReassemblyOutcome.messages,
      List.take_nil, List.append_nil]
  | succ fuel ih =>
    intro payload buf h hmax
    unfold fragmentLoop
    by_cases hle : payload.length ≤ CPXPacket_t.dataSize
    · rw [dif_pos hle]
      simp only [channelRun, channelStep_acc_last, ReassemblyOutcome.messages, List.append_nil]
    · rw [dif_neg hle]
      have hgt : 98 < payload.length := by
        have := dataSize_eq
        omega
      have htl : (payload.take CPXPacket_t.dataSize).length = 98 := by
        rw [List.length_take, dataSize_eq]
        omega
      have hdl : (payload.drop CPXPacket_t.dataSize).length = payload.length - 98 := by
        rw [List.length_drop, dataSize_eq]
      have hfit : ¬ maxMessageSize < (buf ++ payload.take CPXPacket_t.dataSize).length := by
        rw [List.length_append, htl]
        omega
      have hstep : channelStep maxMessageSize (some buf)
          (mkPacket { route with lastPacket := false } (payload.take CPXPacket_t.dataSize)
            (List.length_take_le _ _)) =
          (some (buf ++ payload.take CPXPacket_t.dataSize), .pending) :=
        channelStep_acc_more maxMessageSize route buf _ _ hfit
      have hrec := ih (payload.drop CPXPacket_t.dataSize)
        (buf ++ payload.take CPXPacket_t.dataSize) (by omega)
        (by rw [List.length_append, htl, hdl]; omega)
      simp only [channelRun, hstep, hrec, ReassemblyOutcome.messages, List.nil_append,
        List.append_assoc, List.take_append_drop]

/-- An idle channel fed the fragments of `payload` delivers exactly `payload`
and is idle again. -/
theorem channelRun_fragmentLoop_idle (maxMessageSize : Nat) (route : CPXRouting_t)
    (fuel : Nat) (payload : List Byte) (h : payload.length ≤ fuel)
    (hmax : payload.length ≤ maxMessageSize) :
    channelRun maxMessageSize none (fragmentLoop route fuel payload) =
      (none, [{ route := { route with lastPacket := true }, payload := payload }]) := by
  cases fuel with
  | zero =>
    have hnil : payload = [] := List.length_eq_zero.mp (by omega)
    subst hnil
    simp only [fragmentLoop, channelRun, channelStep_idle_last, ReassemblyOutcome.messages,
      List.take_nil, List.append_nil]
  | succ fuel =>
    unfold fragmentLoop
    by_cases hle : payload.length ≤ CPXPacket_t.dataSize
    · rw [dif_pos hle]
      simp only [channelRun, channelStep_idle_last, ReassemblyOutcome.messages, List.append_nil]
    · rw [dif_neg hle]
      have hgt : 98 < payload.length := by
        have := dataSize_eq
        omega
      have htl : (payload.take CPXPacket_t.dataSize).length = 98 := by
        rw [List.length_take, dataSize_eq]
        omega
      have hdl : (payload.drop CPXPacket_t.dataSize).length = payload.length - 98 := by
        rw [List.length_drop, dataSize_eq]
      have hstep : channelStep maxMessageSize none
          (mkPacket { route with lastPacket := false } (payload.take CPXPacket_t.dataSize)
            (List.length_take_le _ _)) =
          (some (payload.take CPXPacket_t.dataSize), .pending) :=
        channelStep_idle_more maxMessageSize route _ _
      have hrec := channelRun_fragmentLoop_acc maxMessageSize route fuel
        (payload.drop CPXPacket_t.dataSize) (payload.take CPXPacket_t.dataSize) (by omega)
        (by rw [htl, hdl]; omega)
      simp only [channelRun, hstep, hrec, ReassemblyOutcome.messages, List.nil_append,
        List.take_append_drop]

theorem fragmentLoop_key (route : CPXRouting_t) (fuel : Nat) (payload : List Byte) :
    ∀ p ∈ fragmentLoop route fuel payload, p.route.key = route.key := by
  intro p hp
  obtain ⟨_, h1, h2, h3⟩ := fragmentLoop_packets route fuel payload p hp
  simp [CPXRouting_t.key, h1, h2, h3]


/-! ## Fragmenter and reassembler: claims -/


theorem reassembleAll_messages_route (maxMessageSize : Nat) :
    ∀ (wire : List CPXPacket_t) (st : Reassembler),
      ∀ m ∈ (reassembleAll maxMessageSize st wire).2, ∃ p ∈ wire, m.route = p.route := by
  intro wire
  induction wire with
  | nil =>
    intro st m hm
    simp [reassembleAll] at hm
  | cons p ps ih =>
    intro st m hm
    simp only [reassembleAll, List.mem_append] at hm
    rcases hm with hm | hm
    · exact ⟨p, List.mem_cons_self _ _,
        channelStep_messages_route maxMessageSize (st p.route.key) p m hm⟩
    · obtain ⟨q, hq, hr⟩ := ih _ m hm
      exact ⟨q, List.mem_cons_of_mem _ hq, hr⟩

/-- C7: for a payload of length `n` within the configured maximum, `fragment`
succeeds; it yields one packet when `n ≤ MaxPayload` and `ceil(n / MaxPayload)`
packets when `n > MaxPayload`, with `MaxPayload = 98`; every packet carries at
most `MaxPayload` bytes and the source, destination and function of the route;
`lastPacket` is true on the last packet and false on all others; 250 bytes
give packets of 98, 98 and 54 bytes. -/
theorem fragment_spec (maxMessageSize : Nat) (route : CPXRouting_t) (payload : List Byte)
    (h : payload.length ≤ maxMessageSize) :
    ∃ pkts : List CPXPacket_t,
      fragment maxMessageSize route payload = .ok pkts ∧
      CPXPacket_t.dataSize = 98 ∧
      (payload.length ≤ CPXPacket_t.dataSize → pkts.length = 1) ∧
      (CPXPacket_t.dataSize < payload.length →
        pkts.length = ⌈(payload.length : ℚ) / (CPXPacket_t.dataSize : ℚ)⌉₊) ∧
      (∀ p ∈ pkts, p.dataLength ≤ CPXPacket_t.dataSize ∧ p.route.source = route.source ∧
        p.route.destination = route.destination ∧ p.route.function = route.function) ∧
      (∃ init last, pkts = init ++ [last] ∧ last.route.lastPacket = true ∧
        ∀ p ∈ init, p.route.lastPacket = false) ∧
      (payload.length = 250 → pkts.map (fun p => p.dataLength) = [98, 98, 54]) := by
  refine ⟨fragmentLoop route payload.length payload, ?_, rfl, ?_, ?_, ?_, ?_, ?_⟩
  · unfold fragment
    rw [if_neg (by omega)]
  · intro hle
    have hle98 : payload.length ≤ 98 := hle
    rw [fragmentLoop_length route _ _ le_rfl, if_pos hle98]
  · intro hgt
    have hgt98 : ¬ payload.length ≤ 98 := by
      have := dataSize_eq
      omega
    rw [fragmentLoop_length route _ _ le_rfl, if_neg hgt98, ceil_div_dataSize]
  · exact fragmentLoop_packets route _ _
  · exact fragmentLoop_flags route _ _
  · intro h250
    exact fragmentLoop_sizes_250 route _ _ (by omega) h250

/-- C7 (witness): the 250-byte example payload with a maximum message size of
1024, and the packets `fragment` computes for it. -/
theorem fragment_spec_witness :
    examplePayload.length ≤ 1024 ∧
      (∃ pkts : List CPXPacket_t,
        fragment 1024 exampleRoute examplePayload = .ok pkts ∧
        CPXPacket_t.dataSize = 98 ∧
        (examplePayload.length ≤ CPXPacket_t.dataSize → pkts.length = 1) ∧
        (CPXPacket_t.dataSize < examplePayload.length →
          pkts.length = ⌈(examplePayload.length : ℚ) / (CPXPacket_t.dataSize : ℚ)⌉₊) ∧
        (∀ p ∈ pkts, p.dataLength ≤ CPXPacket_t.dataSize ∧
          p.route.source = exampleRoute.source ∧
          p.route.destination = exampleRoute.destination ∧
          p.route.function = exampleRoute.function) ∧
        (∃ init last, pkts = init ++ [last] ∧ last.route.lastPacket = true ∧
          ∀ p ∈ init, p.route.lastPacket = false) ∧
        (examplePayload.length = 250 → pkts.map (fun p => p.dataLength) = [98, 98, 54])) ∧
      (fragmentLoop exampleRoute 250 examplePayload).map (fun p => p.route.lastPacket) =
        [false, false, true] :=
  ⟨by decide, fragment_spec 1024 exampleRoute examplePayload (by decide), by decide⟩

/-- C8: round trip.  For a payload within the configured maximum, `fragment`
succeeds and feeding its packets in order to a reassembler whose channel for
the route is idle delivers exactly one message, carrying the payload, and
leaves that channel idle; the same holds on the channel of the route when the
packets are interleaved on the wire with packets of other channels. -/
theorem reassemble_fragment_roundtrip (maxMessageSize : Nat) (route : CPXRouting_t)
    (payload : List Byte) (h : payload.length ≤ maxMessageSize) :
    ∃ pkts : List CPXPacket_t,
      fragment maxMessageSize route payload = .ok pkts ∧
      (∀ st : Reassembler, st route.key = none →
        (reassembleAll maxMessageSize st pkts).2 =
            [{ route := { route with lastPacket := true }, payload := payload }] ∧
          (reassembleAll maxMessageSize st pkts).1 route.key = none) ∧
      (∀ (st : Reassembler) (wire : List CPXPacket_t), st route.key = none →
        wire.filter (fun p => decide (p.route.key = route.key)) = pkts →
        (reassembleAll maxMessageSize st wire).2.filter
              (fun m => decide (m.route.key = route.key)) =
            [{ route := { route with lastPacket := true }, payload := payload }] ∧
          (reassembleAll maxMessageSize st wire).1 route.key = none) := by
  have hwire : ∀ (st : Reassembler) (wire : List CPXPacket_t), st route.key = none →
      wire.filter (fun p => decide (p.route.key = route.key)) =
        fragmentLoop route payload.length payload →
      (reassembleAll maxMessageSize st wire).2.filter
            (fun m => decide (m.route.key = route.key)) =
          [{ route := { route with lastPacket := true }, payload := payload }] ∧
        (reassembleAll maxMessageSize st wire).1 route.key = none := by
    intro st wire hidle hfilter
    obtain ⟨h1, h2⟩ := reassembleAll_channel maxMessageSize route.key wire st
    rw [hfilter, hidle,
      channelRun_fragmentLoop_idle maxMessageSize route _ payload le_rfl h] at h1 h2
    exact ⟨h2, h1⟩
  refine ⟨fragmentLoop route payload.length payload, ?_, ?_, hwire⟩
  · unfold fragment
    rw [if_neg (by omega)]
  · intro st hidle
    have hall : (fragmentLoop route payload.length payload).filter
        (fun p => decide (p.route.key = route.key)) =
        fragmentLoop route payload.length payload := by
      rw [List.filter_eq_self]
      intro p hp
      simpa using fragmentLoop_key route _ _ p hp
    obtain ⟨h1, h2⟩ := hwire st _ hidle hall
    refine ⟨?_, h2⟩
    rw [← h1, eq_comm, List.filter_eq_self]
    intro m hm
    obtain ⟨p, hp, hr⟩ := reassembleAll_messages_route maxMessageSize _ st m hm
    simpa [hr] using fragmentLoop_key route _ _ p hp

/-- C8 (witness): the 250-byte example payload round-trips, also when its three
fragments are interleaved on the wire with the two fragments of a console
message, which is reassembled as well. -/
theorem reassemble_fragment_roundtrip_witness :
    examplePayload.length ≤ 1024 ∧
      (∃ pkts : List CPXPacket_t,
        fragment 1024 exampleRoute examplePayload = .ok pkts ∧
        (∀ st : Reassembler, st exampleRoute.key = none →
          (reassembleAll 1024 st pkts).2 =
              [{ route := { exampleRoute with lastPacket := true },
                 payload := examplePayload }] ∧
            (reassembleAll 1024 st pkts).1 exampleRoute.key = none) ∧
        (∀ (st : Reassembler) (wire : List CPXPacket_t), st exampleRoute.key = none →
          wire.filter (fun p => decide (p.route.key = exampleRoute.key)) = pkts →
          (reassembleAll 1024 st wire).2.filter
                (fun m => decide (m.route.key = exampleRoute.key)) =
              [{ route := { exampleRoute with lastPacket := true },
                 payload := examplePayload }] ∧
            (reassembleAll 1024 st wire).1 exampleRoute.key = none)) ∧
      fragment 1024 exampleRoute examplePayload =
        .ok (fragmentLoop exampleRoute 250 examplePayload) ∧
      exampleWire.filter (fun p => decide (p.route.key = exampleRoute.key)) =
        fragmentLoop exampleRoute 250 examplePayload ∧
      exampleWire.length = 5 ∧
      (reassembleAll 1024 Reassembler.idle exampleWire).2 =
        [{ route := { exampleConsoleRoute with lastPacket := true },
           payload := examplePayload.take 120 },
         { route := { exampleRoute with lastPacket := true }, payload := examplePayload }] := by
  refine ⟨by decide,
    reassemble_fragment_roundtrip 1024 exampleRoute examplePayload (by decide), rfl, ?_, ?_, ?_⟩
  · decide
  · decide
  · decide


/-! ## Send path -/

theorem afterWait_capacity {α : Type} :
    ∀ (ms : Nat) (q : BlockingQueue α) (consumer : Nat → Nat),
      (q.afterWait consumer ms).capacity = q.capacity := by
  intro ms
  induction ms with
  | zero => intro q consumer; rfl
  | succ ms ih => intro q consumer; exact ih _ _

theorem push_ne_self {α : Type} (q : BlockingQueue α) (x : α) : q.push x ≠ q := by
  intro h
  have hlen := congrArg (fun q => q.items.length) h
  simp [BlockingQueue.push] at hlen

/-- The send loop: it waits `k` milliseconds during which the queue is full,
then either enqueues (queue not full at `k`) or gives up at `k = timeoutInMS`. -/
theorem cpxSendPacket_wait (packet : CPXPacket_t) :
    ∀ (timeoutInMS : Nat) (txQueue : BlockingQueue CPXPacket_t) (transport : Nat → Nat),
      ∃ k, k ≤ timeoutInMS ∧
        (∀ j, j < k → (txQueue.afterWait transport j).isFull = true) ∧
        (((txQueue.afterWait transport k).isFull = false ∧
            cpxSendPacket txQueue transport packet timeoutInMS =
              (true, (txQueue.afterWait transport k).push packet)) ∨
          (k = timeoutInMS ∧ (txQueue.afterWait transport k).isFull = true ∧
            cpxSendPacket txQueue transport packet timeoutInMS =
              (false, txQueue.afterWait transport k))) := by
  intro timeoutInMS
  induction timeoutInMS with
  | zero =>
    intro txQueue transport
    refine ⟨0, le_rfl, by intro j hj; omega, ?_⟩
    cases hfull : txQueue.isFull
    · left
      exact ⟨hfull, by simp [cpxSendPacket, BlockingQueue.afterWait, hfull]⟩
    · right
      exact ⟨rfl, hfull, by simp [cpxSendPacket, BlockingQueue.afterWait, hfull]⟩
  | succ t ih =>
    intro txQueue transport
    cases hfull : txQueue.isFull
    · refine ⟨0, Nat.zero_le _, by intro j hj; omega, Or.inl ⟨hfull, ?_⟩⟩
      simp [cpxSendPacket, BlockingQueue.afterWait, hfull]
    · obtain ⟨k, hk, hbefore, hcase⟩ :=
        ih (txQueue.drain (transport 0)) (fun i => transport (i + 1))
      refine ⟨k + 1, by omega, ?_, ?_⟩
      · intro j hj
        cases j with
        | zero => exact hfull
        | succ j => exact hbefore j (by omega)
      · have hstep : cpxSendPacket txQueue transport packet (t + 1) =
            cpxSendPacket (txQueue.drain (transport 0)) (fun i => transport (i + 1))
              packet t := by
          simp [cpxSendPacket, hfull]
        rw [hstep]
        rcases hcase with ⟨h1, h2⟩ | ⟨h1, h2, h3⟩
        · exact Or.inl ⟨h1, h2⟩
        · exact Or.inr ⟨by omega, h2, h3⟩

/-- C9: `cpxSendPacket` returns true exactly when the packet was placed on the
outbound queue.  After some `k ≤ timeoutInMS` milliseconds of waiting on a full
queue the call ends: it returns true iff the queue then has a free slot, in
which case the queue is the waited-for queue with the packet appended; it
returns false iff the queue was full during the whole timeout, in which case
nothing is enqueued.  With `timeoutInMS = 0` a single attempt is made: on a
full queue the result is false and the queue is unchanged. -/
theorem cpxSendPacket_spec (txQueue : BlockingQueue CPXPacket_t) (transport : Nat → Nat)
    (packet : CPXPacket_t) (timeoutInMS : Nat) :
    (∃ k, k ≤ timeoutInMS ∧
      (∀ j, j < k → (txQueue.afterWait transport j).isFull = true) ∧
      ((cpxSendPacket txQueue transport packet timeoutInMS).1 = true ↔
        (cpxSendPacket txQueue transport packet timeoutInMS).2 =
          (txQueue.afterWait transport k).push packet) ∧
      ((cpxSendPacket txQueue transport packet timeoutInMS).1 = false ↔
        (cpxSendPacket txQueue transport packet timeoutInMS).2 =
          txQueue.afterWait transport k) ∧
      ((cpxSendPacket txQueue transport packet timeoutInMS).1 = true ↔
        (txQueue.afterWait transport k).isFull = false) ∧
      ((cpxSendPacket txQueue transport packet timeoutInMS).1 = false →
        k = timeoutInMS)) ∧
    ((cpxSendPacket txQueue transport packet timeoutInMS).1 = false ↔
      ∀ j, j ≤ timeoutInMS → (txQueue.afterWait transport j).isFull = true) ∧
    (txQueue.isFull = true → cpxSendPacket txQueue transport packet 0 = (false, txQueue)) ∧
    (txQueue.isFull = false →
      cpxSendPacket txQueue transport packet 0 = (true, txQueue.push packet)) := by
  obtain ⟨k, hk, hbefore, hcase⟩ := cpxSendPacket_wait packet timeoutInMS txQueue transport
  refine ⟨⟨k, hk, hbefore, ?_⟩, ?_, ?_, ?_⟩
  · rcases hcase with ⟨h1, h2⟩ | ⟨h1, h2, h3⟩
    · rw [h2]
      refine ⟨by simp, ?_, by simp [h1], by simp⟩
      simp only [Bool.true_eq_false, false_iff]
      exact push_ne_self _ _
    · rw [h3]
      refine ⟨?_, by simp, by simp [h2], fun _ => h1⟩
      simp only [Bool.false_eq_true, false_iff]
      exact fun h => push_ne_self _ _ h.symm
  · rcases hcase with ⟨h1, h2⟩ | ⟨h1, h2, h3⟩
    · rw [h2]
      simp only [Bool.true_eq_false, false_iff]
      intro hall
      rw [hall k hk] at h1
      exact Bool.noConfusion h1
    · rw [h3]
      simp only [true_iff]
      intro j hj
      rcases Nat.lt_or_ge j k with hlt | hge
      · exact hbefore j hlt
      · have : j = k := by omega
        rw [this]
        exact h2
  · intro hfull
    simp [cpxSendPacket, hfull]
  · intro hfull
    simp [cpxSendPacket, hfull]

/-- C9 (witness): on a full queue of capacity 1 a send with timeout 0 fails and
leaves the queue unchanged; so does a send with a timeout of 1 ms; with a
timeout of 5 ms the transport frees the slot in time and the packet is queued. -/
theorem cpxSendPacket_spec_witness :
    exampleFullQueue.isFull = true ∧
      cpxSendPacket exampleFullQueue exampleTransport exampleLocalPacket 0 =
        (false, exampleFullQueue) ∧
      cpxSendPacket exampleFullQueue exampleTransport exampleLocalPacket 1 =
        (false, exampleFullQueue) ∧
      cpxSendPacket exampleFullQueue exampleTransport exampleLocalPacket 5 =
        (true, { capacity := 1, items := [exampleLocalPacket] }) := by
  refine ⟨by decide,
    (cpxSendPacket_spec exampleFullQueue exampleTransport exampleLocalPacket 0).2.2.1
      (by decide), ?_, ?_⟩ <;> decide

/-! ## Receive path -/

/-- What the router pushes onto the receive queue is destined to the STM32. -/
theorem routerReceive_queue (r r' : Router) (p : CPXPacket_t)
    (hinv : ∀ m ∈ r.rxQueue.items, m.route.destination = CPXTarget_t.CPX_T_STM32)
    (hstep : routerReceive r p = some r') :
    ∀ m ∈ r'.rxQueue.items, m.route.destination = CPXTarget_t.CPX_T_STM32 := by
  unfold routerReceive at hstep
  by_cases hdest : p.route.destination ≠ CPXTarget_t.CPX_T_STM32
  · rw [if_pos hdest] at hstep
    cases hstep
    exact hinv
  · rw [if_neg hdest] at hstep
    have hlocal : p.route.destination = CPXTarget_t.CPX_T_STM32 := not_not.mp hdest
    by_cases hreg : r.registered p.route.function = false
    · rw [if_pos hreg] at hstep
      cases hstep
      exact hinv
    · rw [if_neg hreg] at hstep
      cases hout : (reassemble r.maxMessageSize r.reassembler p).2 with
      | pending =>
        rw [hout] at hstep
        cases hstep
        exact hinv
      | messageTooLarge =>
        rw [hout] at hstep
        cases hstep
        exact hinv
      | delivered m0 =>
        rw [hout] at hstep
        have hm0 : m0.route = p.route := by
          apply channelStep_messages_route r.maxMessageSize (r.reassembler p.route.key) p
          have : (channelStep r.maxMessageSize (r.reassembler p.route.key) p).2 =
              .delivered m0 := hout
          rw [this]
          exact List.mem_singleton.mpr rfl
        by_cases hfull : r.rxQueue.isFull = true
        · simp [hfull] at hstep
        · simp only [hfull] at hstep
          cases hstep
          intro m hm
          simp only [BlockingQueue.push, List.mem_append, List.mem_singleton] at hm
          rcases hm with hm | hm
          · exact hinv m hm
          · rw [hm, hm0]
            exact hlocal

theorem routerStep_queue (r : Router) (e : RouterEvent)
    (hinv : ∀ m ∈ r.rxQueue.items, m.route.destination = CPXTarget_t.CPX_T_STM32) :
    ∀ m ∈ (routerStep r e).rxQueue.items, m.route.destination = CPXTarget_t.CPX_T_STM32 := by
  cases e with
  | incoming p =>
    show ∀ m ∈ ((routerReceive r p).getD r).rxQueue.items,
      m.route.destination = CPXTarget_t.CPX_T_STM32
    cases hstep : routerReceive r p with
    | none => exact hinv
    | some r' => exact routerReceive_queue r r' p hinv hstep
  | receive =>
    show ∀ m ∈ (((cpxReceivePacketBlocking r).map (fun res => res.2)).getD r).rxQueue.items,
      m.route.destination = CPXTarget_t.CPX_T_STM32
    unfold cpxReceivePacketBlocking
    cases hitems : r.rxQueue.items with
    | nil =>
      intro m hm
      simp only [Option.map_none', Option.getD_none] at hm
      exact hinv m hm
    | cons m0 rest =>
      intro m hm
      simp only [Option.map_some', Option.getD_some] at hm
      exact hinv m (by rw [hitems]; exact List.mem_cons_of_mem _ hm)

theorem routerRun_queue (events : List RouterEvent) :
    ∀ r : Router,
      (∀ m ∈ r.rxQueue.items, m.route.destination = CPXTarget_t.CPX_T_STM32) →
      ∀ m ∈ (routerRun r events).rxQueue.items,
        m.route.destination = CPXTarget_t.CPX_T_STM32 := by
  induction events with
  | nil => intro r hinv; exact hinv
  | cons e events ih =>
    intro r hinv
    exact ih (routerStep r e) (routerStep_queue r e hinv)

theorem cpxReceivePacketBlocking_head (r : Router) (m : LogicalMessage) (r' : Router)
    (h : cpxReceivePacketBlocking r = some (m, r')) : m ∈ r.rxQueue.items := by
  unfold cpxReceivePacketBlocking at h
  cases hitems : r.rxQueue.items with
  | nil => simp [hitems] at h
  | cons m0 rest =>
    simp only [hitems, Option.some.injEq, Prod.mk.injEq] at h
    rw [← h.1]
    exact List.mem_cons_self _ _

theorem routerReturned_local (events : List RouterEvent) :
    ∀ r : Router,
      (∀ m ∈ r.rxQueue.items, m.route.destination = CPXTarget_t.CPX_T_STM32) →
      ∀ m ∈ routerReturned r events, m.route.destination = CPXTarget_t.CPX_T_STM32 := by
  induction events with
  | nil =>
    intro r _ m hm
    simp [routerReturned] at hm
  | cons e events ih =>
    intro r hinv m hm
    cases e with
    | incoming p =>
      exact ih _ (routerStep_queue r (.incoming p) hinv) m hm
    | receive =>
      simp only [routerReturned, List.mem_append] at hm
      rcases hm with hm | hm
      · cases hres : cpxReceivePacketBlocking r with
        | none => simp [hres] at hm
        | some res =>
          simp only [hres, Option.map_some', Option.toList_some, List.mem_singleton] at hm
          rw [hm]
          exact hinv _ (cpxReceivePacketBlocking_head r res.1 res.2 hres)
      · exact ih _ (routerStep_queue r .receive hinv) m hm

/-- C10: the receive path delivers only packets routed to the local target.
Starting from a router with an empty receive queue, after any sequence of
incoming packets and receive calls, a message `cpxReceivePacketBlocking`
returns has destination `CPX_T_STM32`, as has every message returned during
the sequence; a packet with any other destination leaves the router as it was,
so it is never put on the receive queue. -/
theorem cpxReceivePacketBlocking_local (maxMessageSize capacity : Nat)
    (registered : CPXFunction_t → Bool) (events : List RouterEvent) :
    (∀ (m : LogicalMessage) (r' : Router),
      cpxReceivePacketBlocking
          (routerRun (Router.init maxMessageSize capacity registered) events) = some (m, r') →
        m.route.destination = CPXTarget_t.CPX_T_STM32) ∧
      (∀ m ∈ routerReturned (Router.init maxMessageSize capacity registered) events,
        m.route.destination = CPXTarget_t.CPX_T_STM32) ∧
      (∀ (r : Router) (p : CPXPacket_t), p.route.destination ≠ CPXTarget_t.CPX_T_STM32 →
        routerReceive r p = some r) := by
  have hinit : ∀ m ∈ (Router.init maxMessageSize capacity registered).rxQueue.items,
      m.route.destination = CPXTarget_t.CPX_T_STM32 := by
    intro m hm
    simp [Router.init] at hm
  refine ⟨?_, routerReturned_local events _ hinit, ?_⟩
  · intro m r' hres
    exact routerRun_queue events _ hinit m (cpxReceivePacketBlocking_head _ m r' hres)
  · intro r p hdest
    unfold routerReceive
    rw [if_pos hdest]

/-- C10 (witness): a router receives a packet for the remote host and then
one for the STM32; the receive calls return the message for the STM32 only,
and the packet for the host leaves the router unchanged. -/
theorem cpxReceivePacketBlocking_local_witness :
    exampleForeignPacket.route.destination ≠ CPXTarget_t.CPX_T_STM32 ∧
      routerReceive (Router.init 1024 4 (fun _ => true)) exampleForeignPacket =
        some (Router.init 1024 4 (fun _ => true)) ∧
      exampleLocalPacket.route.destination = CPXTarget_t.CPX_T_STM32 ∧
      routerReturned (Router.init 1024 4 (fun _ => true))
          [.incoming exampleForeignPacket, .incoming exampleLocalPacket, .receive, .receive] =
        [{ route := exampleLocalPacket.route, payload := examplePayload.take 10 }] := by
  refine ⟨by decide,
    (cpxReceivePacketBlocking_local 1024 4 (fun _ => true) []).2.2 _ exampleForeignPacket
      (by decide), ?_, ?_⟩ <;> decide

end Aideck
